import Mathlib

/-!
Shallow embedding of the store-search pipeline of `streamlit_app.py`
(class `ShoppingFinder`).  External effects are made explicit:

* HTTP responses (geocoding, nearby search, text search) are inputs of type
  `Except Unit _`: `Except.error ()` models a transport error raised inside
  the `try` block, `Except.ok` carries the parsed JSON payload.
* Random draws of `np.random` are abstracted as input functions supplying
  one rational draw per use site (per place index and item index for the
  availability simulation, per fallback index for coordinate perturbation,
  rating and review count).
* The distance function used by the aggregation loop is a parameter
  (`dist`), since in the source it is the method `self.calculate_distance`;
  the method itself is embedded over the reals as `calculate_distance`.
* Python's `ZeroDivisionError` (raised by `match_count / len(items)` when
  the item list is empty) is modelled by record assembly returning
  `Except Unit StoreRecord`, the error propagating exactly as the exception
  would.
-/

deriving instance DecidableEq for Except

namespace ShoppingFinder

/-- Round half to even (Python's `round` tie-breaking) to an integer. -/
def roundHalfEven (x : ℚ) : ℤ :=
  let f := ⌊x⌋
  let frac := x - f
  if frac < 1/2 then f
  else if 1/2 < frac then f + 1
  else if f % 2 = 0 then f else f + 1

/-- Python's `round(x, 1)`: round to one decimal place. -/
def round1 (x : ℚ) : ℚ := (roundHalfEven (x * 10) : ℚ) / 10

/-- Python's `str.lower()` (ASCII case folding, as `Char.toLower`). -/
def strLower (s : String) : String := ⟨s.data.map Char.toLower⟩

/-- Python's `str.strip()`: drop leading and trailing whitespace. -/
def strTrim (s : String) : String :=
  ⟨((s.data.dropWhile Char.isWhitespace).reverse.dropWhile Char.isWhitespace).reverse⟩

/-- Test that the first character list is a prefix of the second. -/
def beginsWith : List Char → List Char → Bool
  | [], _ => true
  | _ :: _, [] => false
  | a :: as, b :: bs => a == b && beginsWith as bs

/-- Test that `sub` occurs as a contiguous run inside the second list. -/
def hasSub (sub : List Char) : List Char → Bool
  | [] => beginsWith sub []
  | a :: rest => beginsWith sub (a :: rest) || hasSub sub rest

/-- Python's substring test `sub in s`. -/
def containsSub (s sub : String) : Bool := hasSub sub.data s.data

/-- The fixed reference list `self.common_stores` of regional chains. -/
def common_stores : List String :=
  ["Esselunga", "Conad", "Coop", "Carrefour", "Lidl", "Eurospin",
   "Pam", "MD", "Tigros", "Iper", "Iperal", "Sigma", "Selex",
   "Despar", "Fresco", "NaturaSì", "U2", "Bennet"]

/-- One entry of a places-API `results` array: the fields the program reads.
Optional fields model `dict.get` on keys that may be absent. -/
structure Place where
  name : String
  lat : ℚ
  lng : ℚ
  vicinity : Option String
  rating : Option ℚ
  user_ratings_total : Option ℤ
  place_id : Option String
  opening_now : Option Bool
  deriving DecidableEq, Repr

/-- Parsed geocoding response: `status` plus the `geometry.location` of each
entry of `results`. -/
structure GeoResponse where
  status : String
  results : List (ℚ × ℚ)
  deriving DecidableEq, Repr

/-- Parsed places response (nearby search and text search). -/
structure APIResponse where
  status : String
  results : List Place
  deriving DecidableEq, Repr

/-- The dictionary appended to `stores_data` for each qualifying store. -/
structure StoreRecord where
  name : String
  address : String
  distance_km : ℚ
  rating : ℚ
  user_ratings_total : ℤ
  products_found : List String
  products_count : ℕ
  missing_products : ℤ
  has_all_products : Bool
  total_items : ℕ
  match_percentage : ℚ
  recommended : Bool
  place_id : String
  opening_now : Option Bool
  deriving DecidableEq, Repr

/-- `geocode_location`: first result's location on `status == 'OK'` with a
non-empty `results`, otherwise the fixed Bergamo fallback `(45.698, 9.677)`;
a transport error also yields the fallback. -/
def geocode_location (resp : Except Unit GeoResponse) : ℚ × ℚ :=
  match resp with
  | .error _ => (45.698, 9.677)
  | .ok d =>
    match d.results with
    | [] => (45.698, 9.677)
    | r :: _ => if d.status = "OK" then r else (45.698, 9.677)

/-- `search_places_nearby`: the `results` array on OK status, an empty list
on API-level failure or transport error. -/
def search_places_nearby (resp : Except Unit APIResponse) : List Place :=
  match resp with
  | .error _ => []
  | .ok d => if d.status = "OK" then d.results else []

/-- `search_places_text`: the `results` array on OK status, an empty list
on API-level failure or transport error. -/
def search_places_text (resp : Except Unit APIResponse) : List Place :=
  match resp with
  | .error _ => []
  | .ok d => if d.status = "OK" then d.results else []

/-- The per-item availability probability computed inside the loop of
`determine_available_products`: a base probability from store-name keyword
matches, then an override when the item carries organic/dietary keywords. -/
def item_probability (store_name item : String) : ℚ :=
  let store_lower := strLower store_name
  let item_lower := strLower item
  let prob : ℚ :=
    if (["lidl", "eurospin", "md", "discount"].any fun d => containsSub store_lower d) then 6/10
    else if (["naturasì", "bio", "naturale", "fresco"].any fun s => containsSub store_lower s) then 8/10
    else if (["esselunga", "carrefour", "coop", "iper"].any fun s => containsSub store_lower s) then 75/100
    else 7/10
  if (["bio", "naturale", "vegano", "integrale"].any fun k => containsSub item_lower k) then
    if (["naturasì", "bio"].any fun s => containsSub store_lower s) then 9/10 else 4/10
  else prob

/-- The `for item in items` loop of `determine_available_products`, the
draw of `np.random.random()` at position `i` supplied by `draw i`. -/
def determine_go (store_name : String) (draw : ℕ → ℚ) : ℕ → List String → List String
  | _, [] => []
  | i, item :: rest =>
    if draw i < item_probability store_name item then
      item :: determine_go store_name draw (i + 1) rest
    else
      determine_go store_name draw (i + 1) rest

/-- `determine_available_products store_name items` with the random draws
abstracted as the input `draw`. -/
def determine_available_products (store_name : String) (items : List String) (draw : ℕ → ℚ) : List String :=
  determine_go store_name draw 0 items

/-- Address normalisation applied to `place.get('vicinity', ...)`. -/
def addressOf (p : Place) : String :=
  let address := p.vicinity.getD "Info non disponibili"
  if address = "Indirizzo non disponibile" ∨ strTrim address = "" then
    "Info non disponibili"
  else address

/-- Assembly of one store dictionary from its parts.  The division
`match_count / len(items)` raises `ZeroDivisionError` on an empty item
list, modelled by `Except.error ()`. -/
def mkStoreRecord (items : List String) (name address : String) (distance rating : ℚ)
    (urt : ℤ) (avail : List String) (pid : String) (opening : Option Bool) :
    Except Unit StoreRecord :=
  if items.length = 0 then .error () else
  .ok {
    name := name
    address := address
    distance_km := round1 distance
    rating := rating
    user_ratings_total := urt
    products_found := avail
    products_count := avail.length
    missing_products := (items.length : ℤ) - avail.length
    has_all_products := avail.length == items.length
    total_items := items.length
    match_percentage := round1 ((avail.length : ℚ) / (items.length : ℚ) * 100)
    recommended := avail.length == items.length
    place_id := pid
    opening_now := opening }

/-- The `for place in places` aggregation loop of `search_stores`.
`n` is the position of the next place (indexing the abstracted draws),
`seen` the contents of `store_names_processed`.  A name is recorded as
processed before the distance check, exactly as in the source. -/
def processPlaces (dist : ℚ → ℚ → ℚ → ℚ → ℚ) (items : List String)
    (ulat ulon max_km : ℚ) (draws : ℕ → ℕ → ℚ) :
    ℕ → List Place → List String → Except Unit (List StoreRecord)
  | _, [], _ => .ok []
  | n, p :: rest, seen =>
    if p.name ∈ seen then
      processPlaces dist items ulat ulon max_km draws (n + 1) rest seen
    else
      if dist ulat ulon p.lat p.lng ≤ max_km then
        match mkStoreRecord items p.name (addressOf p) (dist ulat ulon p.lat p.lng)
            (p.rating.getD 4) (p.user_ratings_total.getD 100)
            (determine_available_products p.name items (draws n))
            (p.place_id.getD "") p.opening_now with
        | .error e => .error e
        | .ok r =>
          match processPlaces dist items ulat ulon max_km draws (n + 1) rest (p.name :: seen) with
          | .error e => .error e
          | .ok rs => .ok (r :: rs)
      else
        processPlaces dist items ulat ulon max_km draws (n + 1) rest (p.name :: seen)

/-- The `for i, store_name in enumerate(...)` loop of `get_fallback_stores`:
each chain name gets a coordinate perturbed by `perturb i`, and is kept only
when its distance from the origin stays within `max_km`. -/
def fallbackGo (dist : ℚ → ℚ → ℚ → ℚ → ℚ) (items : List String)
    (ulat ulon max_km : ℚ) (perturb : ℕ → ℚ × ℚ) (fdraws : ℕ → ℕ → ℚ)
    (ratingU : ℕ → ℚ) (urtR : ℕ → ℤ) :
    List (ℕ × String) → Except Unit (List StoreRecord)
  | [] => .ok []
  | (i, store_name) :: rest =>
    if dist ulat ulon (ulat + (perturb i).1) (ulon + (perturb i).2) ≤ max_km then
      match mkStoreRecord items store_name "Info non disponibili"
          (dist ulat ulon (ulat + (perturb i).1) (ulon + (perturb i).2))
          (round1 (ratingU i)) (urtR i)
          (determine_available_products store_name items (fdraws i))
          ("fallback_" ++ toString i) (some true) with
      | .error e => .error e
      | .ok r =>
        match fallbackGo dist items ulat ulon max_km perturb fdraws ratingU urtR rest with
        | .error e => .error e
        | .ok rs => .ok (r :: rs)
    else
      fallbackGo dist items ulat ulon max_km perturb fdraws ratingU urtR rest

/-- `get_fallback_stores`: synthesise records for the first 6 chain names,
with the random perturbations, ratings and review counts abstracted as
inputs. -/
def get_fallback_stores (dist : ℚ → ℚ → ℚ → ℚ → ℚ) (items : List String)
    (ulat ulon max_km : ℚ) (perturb : ℕ → ℚ × ℚ) (fdraws : ℕ → ℕ → ℚ)
    (ratingU : ℕ → ℚ) (urtR : ℕ → ℤ) : Except Unit (List StoreRecord) :=
  fallbackGo dist items ulat ulon max_km perturb fdraws ratingU urtR
    (common_stores.take 6).enum

/-- The place list fed to the aggregation loop: the nearby-search results,
supplemented — when they number fewer than 3 — by one text search per name
among the first 3 chain names, results concatenated without deduplication. -/
def assemblePlaces (location : String) (nearbyResp : Except Unit APIResponse)
    (textResp : String → Except Unit APIResponse) : List Place :=
  let places := search_places_nearby nearbyResp
  if places.length < 3 then
    places ++ ((common_stores.take 3).map fun n =>
      search_places_text (textResp (n ++ " " ++ location))).flatten
  else places

/-- `search_stores`: geocode the location, gather places, run the
aggregation loop, and append the fallback generator's output when fewer
than 3 live records survive. -/
def search_stores (dist : ℚ → ℚ → ℚ → ℚ → ℚ) (items : List String)
    (location : String) (max_distance_km : ℚ)
    (geoResp : Except Unit GeoResponse) (nearbyResp : Except Unit APIResponse)
    (textResp : String → Except Unit APIResponse)
    (draws : ℕ → ℕ → ℚ) (perturb : ℕ → ℚ × ℚ) (fdraws : ℕ → ℕ → ℚ)
    (ratingU : ℕ → ℚ) (urtR : ℕ → ℤ) : Except Unit (List StoreRecord) :=
  match processPlaces dist items (geocode_location geoResp).1 (geocode_location geoResp).2
      max_distance_km draws 0 (assemblePlaces location nearbyResp textResp) [] with
  | .error e => .error e
  | .ok live =>
    if live.length < 3 then
      match get_fallback_stores dist items (geocode_location geoResp).1
          (geocode_location geoResp).2 max_distance_km perturb fdraws ratingU urtR with
      | .error e => .error e
      | .ok fb => .ok (live ++ fb)
    else .ok live

/-- The real `calculate_distance`: the haversine great-circle distance in
kilometers, Earth radius 6371 km, inputs in degrees. -/
noncomputable def calculate_distance (lat1 lon1 lat2 lon2 : ℝ) : ℝ :=
  6371 * (2 * Real.arcsin (Real.sqrt (
    Real.sin ((lat2 * Real.pi / 180 - lat1 * Real.pi / 180) / 2) ^ 2 +
    Real.cos (lat1 * Real.pi / 180) * Real.cos (lat2 * Real.pi / 180) *
      Real.sin ((lon2 * Real.pi / 180 - lon1 * Real.pi / 180) / 2) ^ 2)))

/-- Availability probability as the spec words it: a base probability from
store-name keyword classes, overridden for organic/dietary items — 0.9 when
the store name matches the organic keywords (naturasì, bio), 0.4 otherwise. -/
def spec_item_probability (store_name item : String) : ℚ :=
  if (["bio", "naturale", "vegano", "integrale"].any fun k => containsSub (strLower item) k) then
    if (["naturasì", "bio"].any fun s => containsSub (strLower store_name) s) then 9/10 else 4/10
  else if (["lidl", "eurospin", "md", "discount"].any fun d => containsSub (strLower store_name) d) then 6/10
  else if (["naturasì", "bio", "naturale", "fresco"].any fun s => containsSub (strLower store_name) s) then 8/10
  else if (["esselunga", "carrefour", "coop", "iper"].any fun s => containsSub (strLower store_name) s) then 75/100
  else 7/10

/-- Availability selection as the spec words it: an item is marked
available exactly when its draw is below its probability. -/
def spec_available_products (store_name : String) (items : List String) (draw : ℕ → ℚ) : List String :=
  (items.enum.filter fun p => decide (draw p.1 < spec_item_probability store_name p.2)).map Prod.snd

/-! Concrete inputs used by witnesses and counterexamples. -/

/-- Distance function that makes every pair of coordinates adjacent. -/
def dist0 : ℚ → ℚ → ℚ → ℚ → ℚ := fun _ _ _ _ => 0

/-- Distance function keyed on the destination latitude: 1 km below
latitude 50, 1000 km from there up. -/
def distLat : ℚ → ℚ → ℚ → ℚ → ℚ := fun _ _ plat _ => if plat < 50 then 1 else 1000

/-- Distance function that is 0 exactly at destination latitude 1. -/
def distC : ℚ → ℚ → ℚ → ℚ → ℚ := fun _ _ plat _ => if plat = 1 then 0 else 1000

/-- Draws that are always below every probability threshold. -/
def draws0 : ℕ → ℕ → ℚ := fun _ _ => 0

/-- Perturbation pushing every fallback coordinate far away. -/
def perturbFar : ℕ → ℚ × ℚ := fun _ => (100, 100)

/-- Perturbation keeping every fallback coordinate at the origin. -/
def perturb0 : ℕ → ℚ × ℚ := fun _ => (0, 0)

/-- Fixed rating draw. -/
def ratingU0 : ℕ → ℚ := fun _ => 4

/-- Fixed review-count draw. -/
def urtR0 : ℕ → ℤ := fun _ => 200

/-- Successful geocoding response located at (45, 9). -/
def geoOk : Except Unit GeoResponse := .ok ⟨"OK", [(45, 9)]⟩

/-- Text search that always fails with a transport error. -/
def textErr : String → Except Unit APIResponse := fun _ => .error ()

/-- A live place named after the first chain in `common_stores`. -/
def placeEss : Place :=
  ⟨"Esselunga", 45.01, 9.01, some "Via Roma 1", some (42/10), some 200, some "pid1", some true⟩

/-- Nearby search returning the single place `placeEss`. -/
def nearbyOk1 : Except Unit APIResponse := .ok ⟨"OK", [placeEss]⟩

/-- A place named "A" that `distC` puts out of range. -/
def placeA1 : Place := ⟨"A", 2, 0, none, none, none, none, none⟩

/-- A second place named "A" that `distC` puts in range. -/
def placeA2 : Place := ⟨"A", 1, 0, none, none, none, none, none⟩

/-- Nearby search returning the two same-named places. -/
def nearbyA : Except Unit APIResponse := .ok ⟨"OK", [placeA1, placeA2]⟩

/-- Nearby search returning only the in-range place named "A". -/
def nearbyA2 : Except Unit APIResponse := .ok ⟨"OK", [placeA2]⟩

/-- The record `search_stores distLat ["pasta"] ...` assembles from
`placeEss`. -/
def rec1 : StoreRecord :=
  ⟨"Esselunga", "Via Roma 1", 1, 42/10, 200, ["pasta"], 1, 0, true, 1, 100, true, "pid1", some true⟩

/-! Structural lemmas about record assembly and the two loops. -/

theorem mkStoreRecord_ok_props {items : List String} {name address : String}
    {distance rating : ℚ} {urt : ℤ} {avail : List String} {pid : String}
    {opening : Option Bool} {r : StoreRecord}
    (h : mkStoreRecord items name address distance rating urt avail pid opening = .ok r) :
    r.name = name ∧ r.distance_km = round1 distance ∧
    r.products_count = avail.length ∧
    r.missing_products = (items.length : ℤ) - avail.length ∧
    r.total_items = items.length ∧
    (r.has_all_products = true ↔ r.products_count = r.total_items) ∧
    r.match_percentage = round1 ((r.products_count : ℚ) / (r.total_items : ℚ) * 100) := by
  unfold mkStoreRecord at h
  split at h
  · exact absurd h (by simp)
  · injection h with h
    subst h
    refine ⟨rfl, rfl, rfl, rfl, rfl, ?_, rfl⟩
    simp

theorem mkStoreRecord_ok_of_ne {items : List String} (name address : String)
    (distance rating : ℚ) (urt : ℤ) (avail : List String) (pid : String)
    (opening : Option Bool) (hne : items ≠ []) :
    ∃ r, mkStoreRecord items name address distance rating urt avail pid opening = .ok r := by
  unfold mkStoreRecord
  rw [if_neg (by simpa using hne)]
  exact ⟨_, rfl⟩

theorem mkStoreRecord_error_of_nil (name address : String)
    (distance rating : ℚ) (urt : ℤ) (avail : List String) (pid : String)
    (opening : Option Bool) :
    mkStoreRecord [] name address distance rating urt avail pid opening = .error () := by
  rfl

theorem processPlaces_mem {dist : ℚ → ℚ → ℚ → ℚ → ℚ} {items : List String}
    {ulat ulon max_km : ℚ} {draws : ℕ → ℕ → ℚ} :
    ∀ (places : List Place) (n : ℕ) (seen : List String) (out : List StoreRecord),
      processPlaces dist items ulat ulon max_km draws n places seen = .ok out →
      ∀ r ∈ out, ∃ plat plng name address rating urt avail pid opening,
        dist ulat ulon plat plng ≤ max_km ∧
        mkStoreRecord items name address (dist ulat ulon plat plng)
          rating urt avail pid opening = .ok r := by
  intro places
  induction places with
  | nil =>
    intro n seen out h r hr
    simp only [processPlaces] at h
    injection h with h
    subst h
    simp at hr
  | cons p rest ih =>
    intro n seen out h r hr
    rw [processPlaces] at h
    by_cases hseen : p.name ∈ seen
    · rw [if_pos hseen] at h
      exact ih _ _ _ h r hr
    · rw [if_neg hseen] at h
      by_cases hd : dist ulat ulon p.lat p.lng ≤ max_km
      · rw [if_pos hd] at h
        cases hmk : mkStoreRecord items p.name (addressOf p) (dist ulat ulon p.lat p.lng)
            (p.rating.getD 4) (p.user_ratings_total.getD 100)
            (determine_available_products p.name items (draws n))
            (p.place_id.getD "") p.opening_now with
        | error e => rw [hmk] at h; exact absurd h (by simp)
        | ok r' =>
          rw [hmk] at h
          cases hrec : processPlaces dist items ulat ulon max_km draws (n + 1) rest
              (p.name :: seen) with
          | error e => rw [hrec] at h; exact absurd h (by simp)
          | ok rs =>
            rw [hrec] at h
            injection h with h
            subst h
            rcases List.mem_cons.mp hr with rfl | hr'
            · exact ⟨p.lat, p.lng, _, _, _, _, _, _, _, hd, hmk⟩
            · exact ih _ _ _ hrec r hr'
      · rw [if_neg hd] at h
        exact ih _ _ _ h r hr

theorem processPlaces_ok_of_ne {dist : ℚ → ℚ → ℚ → ℚ → ℚ} {items : List String}
    {ulat ulon max_km : ℚ} {draws : ℕ → ℕ → ℚ} (hne : items ≠ []) :
    ∀ (places : List Place) (n : ℕ) (seen : List String),
      ∃ out, processPlaces dist items ulat ulon max_km draws n places seen = .ok out := by
  intro places
  induction places with
  | nil => intro n seen; exact ⟨[], rfl⟩
  | cons p rest ih =>
    intro n seen
    rw [processPlaces]
    by_cases hseen : p.name ∈ seen
    · rw [if_pos hseen]; exact ih _ _
    · rw [if_neg hseen]
      by_cases hd : dist ulat ulon p.lat p.lng ≤ max_km
      · rw [if_pos hd]
        obtain ⟨r, hmk⟩ := mkStoreRecord_ok_of_ne p.name (addressOf p)
          (dist ulat ulon p.lat p.lng) (p.rating.getD 4) (p.user_ratings_total.getD 100)
          (determine_available_products p.name items (draws n)) (p.place_id.getD "")
          p.opening_now hne
        rw [hmk]
        obtain ⟨rs, hrec⟩ := ih (n + 1) (p.name :: seen)
        rw [hrec]
        exact ⟨r :: rs, rfl⟩
      · rw [if_neg hd]; exact ih _ _

theorem processPlaces_of_nil {dist : ℚ → ℚ → ℚ → ℚ → ℚ}
    {ulat ulon max_km : ℚ} {draws : ℕ → ℕ → ℚ} :
    ∀ (places : List Place) (n : ℕ) (seen : List String),
      processPlaces dist [] ulat ulon max_km draws n places seen = .error () ∨
      processPlaces dist [] ulat ulon max_km draws n places seen = .ok [] := by
  intro places
  induction places with
  | nil => intro n seen; exact Or.inr rfl
  | cons p rest ih =>
    intro n seen
    rw [processPlaces]
    by_cases hseen : p.name ∈ seen
    · rw [if_pos hseen]; exact ih _ _
    · rw [if_neg hseen]
      by_cases hd : dist ulat ulon p.lat p.lng ≤ max_km
      · rw [if_pos hd, mkStoreRecord_error_of_nil]
        exact Or.inl rfl
      · rw [if_neg hd]; exact ih _ _

theorem processPlaces_names {dist : ℚ → ℚ → ℚ → ℚ → ℚ} {items : List String}
    {ulat ulon max_km : ℚ} {draws : ℕ → ℕ → ℚ} :
    ∀ (places : List Place) (n : ℕ) (seen : List String) (out : List StoreRecord),
      processPlaces dist items ulat ulon max_km draws n places seen = .ok out →
      (∀ r ∈ out, r.name ∉ seen) ∧ (out.map StoreRecord.name).Nodup := by
  intro places
  induction places with
  | nil =>
    intro n seen out h
    simp only [processPlaces] at h
    injection h with h
    subst h
    simp
  | cons p rest ih =>
    intro n seen out h
    rw [processPlaces] at h
    by_cases hseen : p.name ∈ seen
    · rw [if_pos hseen] at h
      exact ih _ _ _ h
    · rw [if_neg hseen] at h
      by_cases hd : dist ulat ulon p.lat p.lng ≤ max_km
      · rw [if_pos hd] at h
        cases hmk : mkStoreRecord items p.name (addressOf p) (dist ulat ulon p.lat p.lng)
            (p.rating.getD 4) (p.user_ratings_total.getD 100)
            (determine_available_products p.name items (draws n))
            (p.place_id.getD "") p.opening_now with
        | error e => rw [hmk] at h; exact absurd h (by simp)
        | ok r' =>
          rw [hmk] at h
          cases hrec : processPlaces dist items ulat ulon max_km draws (n + 1) rest
              (p.name :: seen) with
          | error e => rw [hrec] at h; exact absurd h (by simp)
          | ok rs =>
            rw [hrec] at h
            injection h with h
            subst h
            obtain ⟨hnotin, hnodup⟩ := ih _ _ _ hrec
            have hrname : r'.name = p.name := (mkStoreRecord_ok_props hmk).1
            constructor
            · intro r hr
              rcases List.mem_cons.mp hr with rfl | hr'
              · rw [hrname]; exact hseen
              · intro hmem
                exact hnotin r hr' (List.mem_cons_of_mem _ hmem)
            · rw [List.map_cons]
              refine List.nodup_cons.mpr ⟨?_, hnodup⟩
              intro hmem
              obtain ⟨r, hr, hname⟩ := List.mem_map.mp hmem
              exact hnotin r hr (by rw [hname, hrname]; exact List.mem_cons_self _ _)
      · rw [if_neg hd] at h
        obtain ⟨hnotin, hnodup⟩ := ih _ _ _ h
        exact ⟨fun r hr hmem => hnotin r hr (List.mem_cons_of_mem _ hmem), hnodup⟩

theorem processPlaces_error_head {dist : ℚ → ℚ → ℚ → ℚ → ℚ}
    {ulat ulon max_km : ℚ} {draws : ℕ → ℕ → ℚ} {p : Place} {rest : List Place} {n : ℕ}
    (hd : dist ulat ulon p.lat p.lng ≤ max_km) :
    processPlaces dist [] ulat ulon max_km draws n (p :: rest) [] = .error () := by
  rw [processPlaces]
  rw [if_neg (by simp), if_pos hd, mkStoreRecord_error_of_nil]

theorem fallbackGo_mem {dist : ℚ → ℚ → ℚ → ℚ → ℚ} {items : List String}
    {ulat ulon max_km : ℚ} {perturb : ℕ → ℚ × ℚ} {fdraws : ℕ → ℕ → ℚ}
    {ratingU : ℕ → ℚ} {urtR : ℕ → ℤ} :
    ∀ (l : List (ℕ × String)) (out : List StoreRecord),
      fallbackGo dist items ulat ulon max_km perturb fdraws ratingU urtR l = .ok out →
      ∀ r ∈ out, ∃ plat plng name address rating urt avail pid opening,
        dist ulat ulon plat plng ≤ max_km ∧
        mkStoreRecord items name address (dist ulat ulon plat plng)
          rating urt avail pid opening = .ok r := by
  intro l
  induction l with
  | nil =>
    intro out h r hr
    simp only [fallbackGo] at h
    injection h with h
    subst h
    simp at hr
  | cons q rest ih =>
    intro out h r hr
    obtain ⟨i, store_name⟩ := q
    rw [fallbackGo] at h
    by_cases hd : dist ulat ulon (ulat + (perturb i).1) (ulon + (perturb i).2) ≤ max_km
    · rw [if_pos hd] at h
      cases hmk : mkStoreRecord items store_name "Info non disponibili"
          (dist ulat ulon (ulat + (perturb i).1) (ulon + (perturb i).2))
          (round1 (ratingU i)) (urtR i)
          (determine_available_products store_name items (fdraws i))
          ("fallback_" ++ toString i) (some true) with
      | error e => rw [hmk] at h; exact absurd h (by simp)
      | ok r' =>
        rw [hmk] at h
        cases hrec : fallbackGo dist items ulat ulon max_km perturb fdraws ratingU urtR rest with
        | error e => rw [hrec] at h; exact absurd h (by simp)
        | ok rs =>
          rw [hrec] at h
          injection h with h
          subst h
          rcases List.mem_cons.mp hr with rfl | hr'
          · exact ⟨ulat + (perturb i).1, ulon + (perturb i).2, _, _, _, _, _, _, _, hd, hmk⟩
          · exact ih _ hrec r hr'
    · rw [if_neg hd] at h
      exact ih _ h r hr

theorem fallbackGo_length {dist : ℚ → ℚ → ℚ → ℚ → ℚ} {items : List String}
    {ulat ulon max_km : ℚ} {perturb : ℕ → ℚ × ℚ} {fdraws : ℕ → ℕ → ℚ}
    {ratingU : ℕ → ℚ} {urtR : ℕ → ℤ} :
    ∀ (l : List (ℕ × String)) (out : List StoreRecord),
      fallbackGo dist items ulat ulon max_km perturb fdraws ratingU urtR l = .ok out →
      out.length ≤ l.length := by
  intro l
  induction l with
  | nil =>
    intro out h
    simp only [fallbackGo] at h
    injection h with h
    subst h
    simp
  | cons q rest ih =>
    intro out h
    obtain ⟨i, store_name⟩ := q
    rw [fallbackGo] at h
    by_cases hd : dist ulat ulon (ulat + (perturb i).1) (ulon + (perturb i).2) ≤ max_km
    · rw [if_pos hd] at h
      cases hmk : mkStoreRecord items store_name "Info non disponibili"
          (dist ulat ulon (ulat + (perturb i).1) (ulon + (perturb i).2))
          (round1 (ratingU i)) (urtR i)
          (determine_available_products store_name items (fdraws i))
          ("fallback_" ++ toString i) (some true) with
      | error e => rw [hmk] at h; exact absurd h (by simp)
      | ok r' =>
        rw [hmk] at h
        cases hrec : fallbackGo dist items ulat ulon max_km perturb fdraws ratingU urtR rest with
        | error e => rw [hrec] at h; exact absurd h (by simp)
        | ok rs =>
          rw [hrec] at h
          injection h with h
          subst h
          simpa using Nat.succ_le_succ (ih _ hrec)
    · rw [if_neg hd] at h
      exact Nat.le_succ_of_le (ih _ h)

theorem fallbackGo_ok_of_ne {dist : ℚ → ℚ → ℚ → ℚ → ℚ} {items : List String}
    {ulat ulon max_km : ℚ} {perturb : ℕ → ℚ × ℚ} {fdraws : ℕ → ℕ → ℚ}
    {ratingU : ℕ → ℚ} {urtR : ℕ → ℤ} (hne : items ≠ []) :
    ∀ (l : List (ℕ × String)),
      ∃ out, fallbackGo dist items ulat ulon max_km perturb fdraws ratingU urtR l = .ok out := by
  intro l
  induction l with
  | nil => exact ⟨[], rfl⟩
  | cons q rest ih =>
    obtain ⟨i, store_name⟩ := q
    rw [fallbackGo]
    by_cases hd : dist ulat ulon (ulat + (perturb i).1) (ulon + (perturb i).2) ≤ max_km
    · rw [if_pos hd]
      obtain ⟨r, hmk⟩ := mkStoreRecord_ok_of_ne store_name "Info non disponibili"
        (dist ulat ulon (ulat + (perturb i).1) (ulon + (perturb i).2))
        (round1 (ratingU i)) (urtR i)
        (determine_available_products store_name items (fdraws i))
        ("fallback_" ++ toString i) (some true) hne
      rw [hmk]
      obtain ⟨rs, hrec⟩ := ih
      rw [hrec]
      exact ⟨r :: rs, rfl⟩
    · rw [if_neg hd]; exact ih

theorem fallbackGo_of_nil {dist : ℚ → ℚ → ℚ → ℚ → ℚ}
    {ulat ulon max_km : ℚ} {perturb : ℕ → ℚ × ℚ} {fdraws : ℕ → ℕ → ℚ}
    {ratingU : ℕ → ℚ} {urtR : ℕ → ℤ} :
    ∀ (l : List (ℕ × String)),
      fallbackGo dist [] ulat ulon max_km perturb fdraws ratingU urtR l = .error () ∨
      fallbackGo dist [] ulat ulon max_km perturb fdraws ratingU urtR l = .ok [] := by
  intro l
  induction l with
  | nil => exact Or.inr rfl
  | cons q rest ih =>
    obtain ⟨i, store_name⟩ := q
    rw [fallbackGo]
    by_cases hd : dist ulat ulon (ulat + (perturb i).1) (ulon + (perturb i).2) ≤ max_km
    · rw [if_pos hd, mkStoreRecord_error_of_nil]
      exact Or.inl rfl
    · rw [if_neg hd]; exact ih

theorem search_stores_cases {dist : ℚ → ℚ → ℚ → ℚ → ℚ} {items : List String}
    {location : String} {max_distance_km : ℚ} {geoResp : Except Unit GeoResponse}
    {nearbyResp : Except Unit APIResponse} {textResp : String → Except Unit APIResponse}
    {draws : ℕ → ℕ → ℚ} {perturb : ℕ → ℚ × ℚ} {fdraws : ℕ → ℕ → ℚ}
    {ratingU : ℕ → ℚ} {urtR : ℕ → ℤ} {out : List StoreRecord}
    (h : search_stores dist items location max_distance_km geoResp nearbyResp textResp
        draws perturb fdraws ratingU urtR = .ok out) :
    ∃ live fb,
      processPlaces dist items (geocode_location geoResp).1 (geocode_location geoResp).2
        max_distance_km draws 0 (assemblePlaces location nearbyResp textResp) [] = .ok live ∧
      out = live ++ fb ∧ fb.length ≤ 6 ∧
      (live.length < 3 →
        get_fallback_stores dist items (geocode_location geoResp).1 (geocode_location geoResp).2
          max_distance_km perturb fdraws ratingU urtR = .ok fb) ∧
      (3 ≤ live.length → fb = []) := by
  unfold search_stores at h
  split at h
  · exact absurd h (by simp)
  · next live heq =>
    by_cases hlen : live.length < 3
    · rw [if_pos hlen] at h
      split at h
      · exact absurd h (by simp)
      · next fb heq2 =>
        injection h with h
        subst h
        refine ⟨live, fb, heq, rfl, ?_, fun _ => heq2, fun h3 => absurd hlen (by omega)⟩
        have hl := fallbackGo_length _ _ heq2
        have hlen6 : ((common_stores.take 6).enum).length = 6 := rfl
        omega
    · rw [if_neg hlen] at h
      injection h with h
      subst h
      exact ⟨live, [], heq, by simp, by simp, fun hc => absurd hc hlen, fun _ => rfl⟩

theorem search_stores_mem {dist : ℚ → ℚ → ℚ → ℚ → ℚ} {items : List String}
    {location : String} {max_distance_km : ℚ} {geoResp : Except Unit GeoResponse}
    {nearbyResp : Except Unit APIResponse} {textResp : String → Except Unit APIResponse}
    {draws : ℕ → ℕ → ℚ} {perturb : ℕ → ℚ × ℚ} {fdraws : ℕ → ℕ → ℚ}
    {ratingU : ℕ → ℚ} {urtR : ℕ → ℤ} {out : List StoreRecord}
    (h : search_stores dist items location max_distance_km geoResp nearbyResp textResp
        draws perturb fdraws ratingU urtR = .ok out) :
    ∀ r ∈ out, ∃ plat plng name address rating urt avail pid opening,
      dist (geocode_location geoResp).1 (geocode_location geoResp).2 plat plng ≤ max_distance_km ∧
      mkStoreRecord items name address
        (dist (geocode_location geoResp).1 (geocode_location geoResp).2 plat plng)
        rating urt avail pid opening = .ok r := by
  intro r hr
  obtain ⟨live, fb, hlive, hout, _, hfb, hemp⟩ := search_stores_cases h
  subst hout
  rcases List.mem_append.mp hr with hrl | hrf
  · exact processPlaces_mem _ _ _ _ hlive r hrl
  · by_cases hlen : live.length < 3
    · exact fallbackGo_mem _ _ (hfb hlen) r hrf
    · rw [hemp (by omega)] at hrf
      simp at hrf

theorem search_stores_ok_of_ne {dist : ℚ → ℚ → ℚ → ℚ → ℚ} {items : List String}
    (location : String) (max_distance_km : ℚ) (geoResp : Except Unit GeoResponse)
    (nearbyResp : Except Unit APIResponse) (textResp : String → Except Unit APIResponse)
    (draws : ℕ → ℕ → ℚ) (perturb : ℕ → ℚ × ℚ) (fdraws : ℕ → ℕ → ℚ)
    (ratingU : ℕ → ℚ) (urtR : ℕ → ℤ) (hne : items ≠ []) :
    ∃ out, search_stores dist items location max_distance_km geoResp nearbyResp textResp
      draws perturb fdraws ratingU urtR = .ok out := by
  unfold search_stores
  obtain ⟨live, hlive⟩ := @processPlaces_ok_of_ne dist items (geocode_location geoResp).1
    (geocode_location geoResp).2 max_distance_km draws hne
    (assemblePlaces location nearbyResp textResp) 0 []
  rw [hlive]
  dsimp only
  by_cases hlen : live.length < 3
  · rw [if_pos hlen]
    obtain ⟨fb, hfb⟩ := @fallbackGo_ok_of_ne dist items (geocode_location geoResp).1
      (geocode_location geoResp).2 max_distance_km perturb fdraws ratingU urtR hne
      (common_stores.take 6).enum
    unfold get_fallback_stores
    rw [hfb]
    exact ⟨live ++ fb, rfl⟩
  · rw [if_neg hlen]
    exact ⟨live, rfl⟩

theorem search_stores_of_nil {dist : ℚ → ℚ → ℚ → ℚ → ℚ}
    (location : String) (max_distance_km : ℚ) (geoResp : Except Unit GeoResponse)
    (nearbyResp : Except Unit APIResponse) (textResp : String → Except Unit APIResponse)
    (draws : ℕ → ℕ → ℚ) (perturb : ℕ → ℚ × ℚ) (fdraws : ℕ → ℕ → ℚ)
    (ratingU : ℕ → ℚ) (urtR : ℕ → ℤ) :
    search_stores dist [] location max_distance_km geoResp nearbyResp textResp
      draws perturb fdraws ratingU urtR = .error () ∨
    search_stores dist [] location max_distance_km geoResp nearbyResp textResp
      draws perturb fdraws ratingU urtR = .ok [] := by
  unfold search_stores
  rcases @processPlaces_of_nil dist (geocode_location geoResp).1 (geocode_location geoResp).2
      max_distance_km draws (assemblePlaces location nearbyResp textResp) 0 [] with hp | hp
  · rw [hp]; exact Or.inl rfl
  · rw [hp]
    dsimp only
    rw [if_pos (by simp)]
    unfold get_fallback_stores
    rcases @fallbackGo_of_nil dist (geocode_location geoResp).1 (geocode_location geoResp).2
        max_distance_km perturb fdraws ratingU urtR (common_stores.take 6).enum with hf | hf
    · rw [hf]; exact Or.inl rfl
    · rw [hf]; exact Or.inr rfl

theorem item_probability_eq_spec (s i : String) :
    item_probability s i = spec_item_probability s i := by
  simp only [item_probability, spec_item_probability]

theorem determine_go_eq (store : String) (draw : ℕ → ℚ) :
    ∀ (items : List String) (n : ℕ),
      determine_go store draw n items =
        ((items.enumFrom n).filter fun p =>
          decide (draw p.1 < spec_item_probability store p.2)).map Prod.snd := by
  intro items
  induction items with
  | nil => intro n; rfl
  | cons a l ih =>
    intro n
    rw [determine_go]
    simp only [item_probability_eq_spec]
    by_cases hd : draw n < spec_item_probability store a
    · rw [if_pos hd]
      simp [List.enumFrom, List.filter_cons, hd, ih]
    · rw [if_neg hd]
      simp [List.enumFrom, List.filter_cons, hd, ih]

/-! Claim theorems. -/

/-- C5: for every store name and item, with the uniform random draw
abstracted as an input, `determine_available_products` marks an item
available exactly when its draw is below the probability the spec
describes: 0.6 for discount-chain keywords, else 0.8 for organic/specialty
keywords, else 0.75 for large-chain keywords, else 0.7, overridden for
organic/dietary items to 0.9 when the store name matches the organic
keywords and 0.4 otherwise (`spec_available_products` /
`spec_item_probability` word that rule; the loop realises it). -/
theorem claim_C5_availability_rule (store : String) (items : List String) (draw : ℕ → ℚ) :
    determine_available_products store items draw = spec_available_products store items draw := by
  unfold determine_available_products spec_available_products
  rw [show items.enum = items.enumFrom 0 from rfl]
  exact determine_go_eq store draw items 0

/-- C6: whenever the geocoding call fails at the API level (non-OK status
or empty results) or raises a transport error, `geocode_location` returns
the fixed fallback coordinate (45.698, 9.677) instead of propagating the
failure. -/
theorem claim_C6_geocode_fallback (resp : Except Unit GeoResponse)
    (h : resp = .error () ∨ ∃ d, resp = .ok d ∧ (d.status ≠ "OK" ∨ d.results = [])) :
    geocode_location resp = (45.698, 9.677) := by
  rcases h with rfl | ⟨d, rfl, hd⟩
  · rfl
  · rcases hd with hs | hres
    · cases hr : d.results with
      | nil => simp [geocode_location, hr]
      | cons a t => simp [geocode_location, hr, hs]
    · simp [geocode_location, hres]

/-- Witness for C6: a transport error yields the fallback coordinate. -/
theorem claim_C6_witness :
    geocode_location (.error ()) = (45.698, 9.677) :=
  claim_C6_geocode_fallback _ (Or.inl rfl)

/-- C7: `calculate_distance` (haversine, Earth radius 6371 km, inputs in
degrees) is symmetric in its two coordinates, and the distance from any
coordinate to itself is 0. -/
theorem claim_C7_haversine :
    (∀ lat1 lon1 lat2 lon2 : ℝ,
      calculate_distance lat1 lon1 lat2 lon2 = calculate_distance lat2 lon2 lat1 lon1) ∧
    (∀ lat lon : ℝ, calculate_distance lat lon lat lon = 0) := by
  constructor
  · intro a b c d
    unfold calculate_distance
    have h : ∀ x y : ℝ, Real.sin ((x - y) / 2) ^ 2 = Real.sin ((y - x) / 2) ^ 2 := by
      intro x y
      rw [show (x - y) / 2 = -((y - x) / 2) by ring, Real.sin_neg]
      ring
    rw [h (c * Real.pi / 180) (a * Real.pi / 180), h (d * Real.pi / 180) (b * Real.pi / 180),
      mul_comm (Real.cos (a * Real.pi / 180)) (Real.cos (c * Real.pi / 180))]
  · intro lat lon
    unfold calculate_distance
    simp

/-- C1: for a non-empty item list, every StoreRecord `search_stores`
returns — live or fallback — satisfies products_count + missing_products =
total_items, total_items = number of requested items, has_all_products ↔
products_count = total_items, and match_percentage =
round(products_count / total_items * 100, 1). -/
theorem claim_C1_record_invariants
    (dist : ℚ → ℚ → ℚ → ℚ → ℚ) (items : List String) (location : String)
    (max_distance_km : ℚ) (geoResp : Except Unit GeoResponse)
    (nearbyResp : Except Unit APIResponse) (textResp : String → Except Unit APIResponse)
    (draws : ℕ → ℕ → ℚ) (perturb : ℕ → ℚ × ℚ) (fdraws : ℕ → ℕ → ℚ)
    (ratingU : ℕ → ℚ) (urtR : ℕ → ℤ) (out : List StoreRecord) (r : StoreRecord)
    (_hne : items ≠ [])
    (hok : search_stores dist items location max_distance_km geoResp nearbyResp textResp
      draws perturb fdraws ratingU urtR = .ok out)
    (hr : r ∈ out) :
    (r.products_count : ℤ) + r.missing_products = (items.length : ℤ) ∧
    r.total_items = items.length ∧
    (r.has_all_products = true ↔ r.products_count = r.total_items) ∧
    r.match_percentage = round1 ((r.products_count : ℚ) / (r.total_items : ℚ) * 100) := by
  obtain ⟨plat, plng, name, address, rating, urt, avail, pid, opening, hd, hmk⟩ :=
    search_stores_mem hok r hr
  obtain ⟨_, _, hc, hm, ht, hall, hmp⟩ := mkStoreRecord_ok_props hmk
  refine ⟨?_, ht, hall, hmp⟩
  rw [hc, hm]
  ring

/-- Witness for C1: the record assembled from `placeEss` in a concrete
search over the single item "pasta". -/
theorem claim_C1_witness :
    (rec1.products_count : ℤ) + rec1.missing_products = ((["pasta"] : List String).length : ℤ) ∧
    rec1.total_items = (["pasta"] : List String).length ∧
    (rec1.has_all_products = true ↔ rec1.products_count = rec1.total_items) ∧
    rec1.match_percentage = round1 ((rec1.products_count : ℚ) / (rec1.total_items : ℚ) * 100) :=
  claim_C1_record_invariants distLat ["pasta"] "Bergamo" 10 geoOk nearbyOk1 textErr
    draws0 perturbFar draws0 ratingU0 urtR0 [rec1] rec1 (by decide)
    (by with_unfolding_all decide) (by with_unfolding_all decide)

/-- C2: every StoreRecord `search_stores` returns — live or fallback —
comes from a location whose distance from the origin is at most
max_distance_km; its stored distance_km is that distance rounded to one
decimal.  Locations beyond the radius are skipped, never emitted. -/
theorem claim_C2_distance_filter
    (dist : ℚ → ℚ → ℚ → ℚ → ℚ) (items : List String) (location : String)
    (max_distance_km : ℚ) (geoResp : Except Unit GeoResponse)
    (nearbyResp : Except Unit APIResponse) (textResp : String → Except Unit APIResponse)
    (draws : ℕ → ℕ → ℚ) (perturb : ℕ → ℚ × ℚ) (fdraws : ℕ → ℕ → ℚ)
    (ratingU : ℕ → ℚ) (urtR : ℕ → ℤ) (out : List StoreRecord) (r : StoreRecord)
    (hok : search_stores dist items location max_distance_km geoResp nearbyResp textResp
      draws perturb fdraws ratingU urtR = .ok out)
    (hr : r ∈ out) :
    ∃ plat plng,
      dist (geocode_location geoResp).1 (geocode_location geoResp).2 plat plng ≤ max_distance_km ∧
      r.distance_km =
        round1 (dist (geocode_location geoResp).1 (geocode_location geoResp).2 plat plng) := by
  obtain ⟨plat, plng, name, address, rating, urt, avail, pid, opening, hd, hmk⟩ :=
    search_stores_mem hok r hr
  exact ⟨plat, plng, hd, (mkStoreRecord_ok_props hmk).2.1⟩

/-- Witness for C2 at the concrete search of the C1 scenario. -/
theorem claim_C2_witness :
    ∃ plat plng,
      distLat (geocode_location geoOk).1 (geocode_location geoOk).2 plat plng ≤ 10 ∧
      rec1.distance_km =
        round1 (distLat (geocode_location geoOk).1 (geocode_location geoOk).2 plat plng) :=
  claim_C2_distance_filter distLat ["pasta"] "Bergamo" 10 geoOk nearbyOk1 textErr
    draws0 perturbFar draws0 ratingU0 urtR0 [rec1] rec1
    (by with_unfolding_all decide) (by with_unfolding_all decide)

/-- C3 fails as stated: with two places both named "A", the first out of
range and the second in range, the loop marks "A" processed at the first
occurrence before the distance check, so the in-range duplicate is skipped
and no record named "A" is produced at all — not exactly one. -/
theorem claim_C3_counterexample :
    [placeA1, placeA2].map Place.name = ["A", "A"] ∧
    processPlaces distC ["pasta"] 45 9 10 draws0 0 [placeA1, placeA2] [] = .ok [] :=
  ⟨by decide, by with_unfolding_all decide⟩

/-- C3 (amended): the aggregation loop produces at most one StoreRecord
per name — only a name's first occurrence is considered (and it may itself
be dropped by the distance filter), so the output names are pairwise
distinct. -/
theorem claim_C3_dedup_at_most_one
    (dist : ℚ → ℚ → ℚ → ℚ → ℚ) (items : List String) (ulat ulon max_km : ℚ)
    (draws : ℕ → ℕ → ℚ) (n : ℕ) (places : List Place) (seen : List String)
    (out : List StoreRecord)
    (hok : processPlaces dist items ulat ulon max_km draws n places seen = .ok out) :
    (out.map StoreRecord.name).Nodup :=
  (processPlaces_names places n seen out hok).2

/-- Witness for C3 (amended) at a concrete run of the loop. -/
theorem claim_C3_witness :
    (([rec1] : List StoreRecord).map StoreRecord.name).Nodup :=
  claim_C3_dedup_at_most_one distLat ["pasta"] 45 9 10 draws0 0 [placeEss] [] [rec1]
    (by with_unfolding_all decide)

/-- C4: whenever `search_stores` succeeds, its output is the live records
followed by a (possibly empty) fallback block of at most 6 records; the
fallback generator is invoked exactly when fewer than 3 live records
survive, and nothing is appended otherwise. -/
theorem claim_C4_fallback_trigger
    (dist : ℚ → ℚ → ℚ → ℚ → ℚ) (items : List String) (location : String)
    (max_distance_km : ℚ) (geoResp : Except Unit GeoResponse)
    (nearbyResp : Except Unit APIResponse) (textResp : String → Except Unit APIResponse)
    (draws : ℕ → ℕ → ℚ) (perturb : ℕ → ℚ × ℚ) (fdraws : ℕ → ℕ → ℚ)
    (ratingU : ℕ → ℚ) (urtR : ℕ → ℤ) (out : List StoreRecord)
    (hok : search_stores dist items location max_distance_km geoResp nearbyResp textResp
      draws perturb fdraws ratingU urtR = .ok out) :
    ∃ live fb,
      processPlaces dist items (geocode_location geoResp).1 (geocode_location geoResp).2
        max_distance_km draws 0 (assemblePlaces location nearbyResp textResp) [] = .ok live ∧
      out = live ++ fb ∧ fb.length ≤ 6 ∧
      (live.length < 3 →
        get_fallback_stores dist items (geocode_location geoResp).1 (geocode_location geoResp).2
          max_distance_km perturb fdraws ratingU urtR = .ok fb) ∧
      (3 ≤ live.length → fb = []) :=
  search_stores_cases hok

/-- Witness for C4 at a concrete search producing one live record and an
empty fallback block. -/
theorem claim_C4_witness :
    ∃ live fb,
      processPlaces distLat ["pasta"] (geocode_location geoOk).1 (geocode_location geoOk).2
        10 draws0 0 (assemblePlaces "Bergamo" nearbyOk1 textErr) [] = .ok live ∧
      [rec1] = live ++ fb ∧ fb.length ≤ 6 ∧
      (live.length < 3 →
        get_fallback_stores distLat ["pasta"] (geocode_location geoOk).1
          (geocode_location geoOk).2 10 perturbFar draws0 ratingU0 urtR0 = .ok fb) ∧
      (3 ≤ live.length → fb = []) :=
  claim_C4_fallback_trigger distLat ["pasta"] "Bergamo" 10 geoOk nearbyOk1 textErr
    draws0 perturbFar draws0 ratingU0 urtR0 [rec1] (by with_unfolding_all decide)

/-- C8: when the nearby search returns fewer than 3 entries, the place list
is that result concatenated — without deduplication — with the text-search
results for each of the first 3 chain names (query "name location"); and a
text-search transport error or non-OK status yields an empty list for that
call instead of a thrown failure. -/
theorem claim_C8_text_search (location : String) (nearbyResp : Except Unit APIResponse)
    (textResp : String → Except Unit APIResponse) :
    ((search_places_nearby nearbyResp).length < 3 →
      assemblePlaces location nearbyResp textResp =
        search_places_nearby nearbyResp ++
          ((common_stores.take 3).map fun n =>
            search_places_text (textResp (n ++ " " ++ location))).flatten) ∧
    (∀ e : Unit, search_places_text (.error e) = []) ∧
    (∀ d : APIResponse, d.status ≠ "OK" → search_places_text (.ok d) = []) := by
  refine ⟨fun hlen => ?_, fun e => rfl, fun d hd => ?_⟩
  · unfold assemblePlaces
    rw [if_pos hlen]
  · simp [search_places_text, hd]

/-- Witness for C8: one supplemented place list, one transport error, one
non-OK status. -/
theorem claim_C8_witness :
    assemblePlaces "Bergamo" nearbyOk1 textErr =
      search_places_nearby nearbyOk1 ++
        ((common_stores.take 3).map fun n =>
          search_places_text (textErr (n ++ " " ++ "Bergamo"))).flatten ∧
    search_places_text (.error ()) = [] ∧
    search_places_text (.ok ⟨"ZERO_RESULTS", [placeEss]⟩) = [] := by
  obtain ⟨h1, h2, h3⟩ := claim_C8_text_search "Bergamo" nearbyOk1 textErr
  exact ⟨h1 (by decide), h2 (), h3 _ (by decide)⟩

/-- C9 fails as stated: an input can contain an in-range place and still
raise no division-by-zero on an empty item list, because the in-range
place is shadowed by an earlier out-of-range place with the same name and
every fallback perturbation lands out of range — the search returns an
empty list instead of failing. -/
theorem claim_C9_counterexample :
    (∃ p ∈ assemblePlaces "x" nearbyA textErr,
      distC (geocode_location geoOk).1 (geocode_location geoOk).2 p.lat p.lng ≤ 10) ∧
    search_stores distC [] "x" 10 geoOk nearbyA textErr draws0 perturbFar draws0
      ratingU0 urtR0 = .ok [] :=
  ⟨⟨placeA2, by decide, by decide⟩, by with_unfolding_all decide⟩

/-- C9 (amended): `search_stores` is partial in the item list.  With an
empty item list it can never produce a record: it either fails with the
division-by-zero error or returns the empty list, and it does fail
whenever a record assembly is reached (for instance as soon as the first
gathered place is within range).  A non-empty item list is a precondition
under which the division is safe and the search always succeeds. -/
theorem claim_C9_partiality
    (dist : ℚ → ℚ → ℚ → ℚ → ℚ) (items : List String) (location : String)
    (max_distance_km : ℚ) (geoResp : Except Unit GeoResponse)
    (nearbyResp : Except Unit APIResponse) (textResp : String → Except Unit APIResponse)
    (draws : ℕ → ℕ → ℚ) (perturb : ℕ → ℚ × ℚ) (fdraws : ℕ → ℕ → ℚ)
    (ratingU : ℕ → ℚ) (urtR : ℕ → ℤ) :
    (items = [] →
      search_stores dist items location max_distance_km geoResp nearbyResp textResp
        draws perturb fdraws ratingU urtR = .error () ∨
      search_stores dist items location max_distance_km geoResp nearbyResp textResp
        draws perturb fdraws ratingU urtR = .ok []) ∧
    (items = [] → ∀ p rest, assemblePlaces location nearbyResp textResp = p :: rest →
      dist (geocode_location geoResp).1 (geocode_location geoResp).2 p.lat p.lng
        ≤ max_distance_km →
      search_stores dist items location max_distance_km geoResp nearbyResp textResp
        draws perturb fdraws ratingU urtR = .error ()) ∧
    (items ≠ [] →
      ∃ out, search_stores dist items location max_distance_km geoResp nearbyResp textResp
        draws perturb fdraws ratingU urtR = .ok out) := by
  refine ⟨?_, ?_, ?_⟩
  · rintro rfl
    exact search_stores_of_nil location max_distance_km geoResp nearbyResp textResp
      draws perturb fdraws ratingU urtR
  · rintro rfl p rest hplaces hd
    unfold search_stores
    rw [hplaces, processPlaces_error_head hd]
  · intro hne
    exact search_stores_ok_of_ne location max_distance_km geoResp nearbyResp textResp
      draws perturb fdraws ratingU urtR hne

/-- Witness for C9 (amended): with no items and the first place in range
the search raises the division error; with one item it succeeds. -/
theorem claim_C9_witness :
    (search_stores distC [] "x" 10 geoOk nearbyA2 textErr draws0 perturbFar draws0
        ratingU0 urtR0 = .error () ∨
      search_stores distC [] "x" 10 geoOk nearbyA2 textErr draws0 perturbFar draws0
        ratingU0 urtR0 = .ok []) ∧
    search_stores distC [] "x" 10 geoOk nearbyA2 textErr draws0 perturbFar draws0
      ratingU0 urtR0 = .error () ∧
    ∃ out, search_stores distC ["pasta"] "x" 10 geoOk nearbyA2 textErr draws0 perturbFar
      draws0 ratingU0 urtR0 = .ok out := by
  obtain ⟨h1, h2, -⟩ := claim_C9_partiality distC [] "x" 10 geoOk nearbyA2 textErr
    draws0 perturbFar draws0 ratingU0 urtR0
  obtain ⟨-, -, h3⟩ := claim_C9_partiality distC ["pasta"] "x" 10 geoOk nearbyA2 textErr
    draws0 perturbFar draws0 ratingU0 urtR0
  exact ⟨h1 rfl, h2 rfl placeA2 [] (by with_unfolding_all decide) (by decide),
    h3 (by decide)⟩

/-- C10: deduplication is not applied across the fallback step — at a
concrete search where the single live store is named "Esselunga" (the
first chain name) and the fallback perturbation stays in range, the
returned list holds two records named "Esselunga". -/
theorem claim_C10_duplicate_name :
    Except.map (fun l => (l.map StoreRecord.name).count "Esselunga")
      (search_stores dist0 ["pasta"] "Bergamo" 10 geoOk nearbyOk1 textErr draws0 perturb0
        draws0 ratingU0 urtR0) = .ok 2 := by
  with_unfolding_all decide

end ShoppingFinder
